import Mathlib

/-!
Verification model of the MongoDB session catalog
(src/mongo/db/session_catalog.cpp) and the router-side multi-statement
transaction requests sender
(src/mongo/s/multi_statement_transaction_requests_sender.cpp).

The catalog is embedded as a functional state machine: the mutex-protected
state becomes an explicit record, and the interruptible condition-variable
waits become explicit outcome constructors (an interrupt flag says whether
the operation's interrupt fires while the wait would block).  Session IDs
and shard IDs are Nat.  Each session entry carries a generation stamp so
that "same entry instance" is expressible.
-/

/-- The transaction participant state held inside each session entry, as seen
by the catalog: the catalog only ever calls invalidate on it, which sets a
flag forcing re-hydration. -/
structure TxnParticipantState where
  invalidated : Bool
deriving Repr, DecidableEq

/-- Mirror of SessionCatalog::SessionRuntimeInfo: per-session record with the
session id, the participant state, and the checked-out flag.  The gen field
is a creation stamp identifying the entry instance (a fresh emplace gets a
fresh stamp). -/
structure SessionRuntimeInfo where
  sessionId : Nat
  txnState : TxnParticipantState
  checkedOut : Bool
  gen : Nat
deriving Repr, DecidableEq

/-- The mutex-protected state of SessionCatalog: the sessions map (as an
association list), the check-out gate, and the checked-out counter.  nextGen
is the model's source of fresh entry-instance stamps. -/
structure SessionCatalog where
  sessions : List (Nat × SessionRuntimeInfo)
  allowCheckingOutSessions : Bool
  numCheckedOutSessions : Nat
  nextGen : Nat
deriving Repr, DecidableEq

/-- Lookup in an association list (std map find). -/
def assocFind {α : Type} (k : Nat) : List (Nat × α) → Option α
  | [] => none
  | (k0, v) :: rest => if k0 = k then some v else assocFind k rest

/-- Pointwise update of the value stored under a key. -/
def assocUpdate {α : Type} (k : Nat) (f : α → α) : List (Nat × α) → List (Nat × α)
  | [] => []
  | (k0, v) :: rest =>
      if k0 = k then (k0, f v) :: assocUpdate k f rest
      else (k0, v) :: assocUpdate k f rest

/-- Erase a key from an association list (std map erase). -/
def assocErase {α : Type} (k : Nat) (l : List (Nat × α)) : List (Nat × α) :=
  l.filter (fun p => p.1 ≠ k)

/-- Number of entries whose checked-out flag is set. -/
def countCheckedOut (l : List (Nat × SessionRuntimeInfo)) : Nat :=
  (l.filter (fun p => p.2.checkedOut)).length

/-- Mirror of SessionCatalog::_getOrCreateSessionRuntimeInfo: asserts the
caller is not in a write unit of work and that checking out sessions is
allowed (invariant; none models process-terminating assertion failure), then
finds the entry for the lsid or emplaces a fresh one. -/
def getOrCreateSessionRuntimeInfo (c : SessionCatalog) (inWriteUnitOfWork : Bool)
    (lsid : Nat) : Option (SessionCatalog × SessionRuntimeInfo) :=
  if inWriteUnitOfWork then none
  else if !c.allowCheckingOutSessions then none
  else
    match assocFind lsid c.sessions with
    | some sri => some (c, sri)
    | none =>
        let sri : SessionRuntimeInfo := ⟨lsid, ⟨false⟩, false, c.nextGen⟩
        some ({ c with sessions := c.sessions ++ [(lsid, sri)],
                       nextGen := c.nextGen + 1 }, sri)

/-- Handle returned by a successful check-out: the session id and the entry
instance it is bound to. -/
structure ScopedCheckedOutSession where
  lsid : Nat
  gen : Nat
deriving Repr, DecidableEq

/-- Shared (non-exclusive) handle returned by getOrCreateSession. -/
structure ScopedSession where
  lsid : Nat
  gen : Nat
deriving Repr, DecidableEq

/-- Outcome of checkOutSession.  interrupted carries the catalog state after
the failed call; blocked models a wait that would suspend with no interrupt
pending (the sequential model cannot be woken); invariantFailure models a
process-terminating assertion. -/
inductive CheckOutOutcome where
  | ok (c : SessionCatalog) (h : ScopedCheckedOutSession)
  | interrupted (c : SessionCatalog)
  | blocked (c : SessionCatalog)
  | invariantFailure
deriving Repr, DecidableEq

/-- Mirror of SessionCatalog::checkOutSession.  Asserts no storage locks are
held and that the operation carries a logical session id; waits on the gate
while allowCheckingOutSessions is false (interruptAtGate says whether the
operation's interrupt fires there); looks up or creates the entry; waits on
the entry's available condition while it is checked out (interruptAtAvailable
likewise); then marks the entry checked out, increments the counter and
returns the scoped handle. -/
def checkOutSession (c : SessionCatalog) (isLocked inWriteUnitOfWork : Bool)
    (opLsid : Option Nat) (interruptAtGate interruptAtAvailable : Bool) :
    CheckOutOutcome :=
  if isLocked then .invariantFailure
  else
    match opLsid with
    | none => .invariantFailure
    | some lsid =>
      if !c.allowCheckingOutSessions then
        if interruptAtGate then .interrupted c else .blocked c
      else
        match getOrCreateSessionRuntimeInfo c inWriteUnitOfWork lsid with
        | none => .invariantFailure
        | some (c1, sri) =>
          if sri.checkedOut then
            if interruptAtAvailable then .interrupted c1 else .blocked c1
          else
            .ok { c1 with
                    sessions := assocUpdate lsid
                      (fun s => { s with checkedOut := true }) c1.sessions,
                    numCheckedOutSessions := c1.numCheckedOutSessions + 1 }
                 ⟨lsid, sri.gen⟩

/-- Mirror of SessionCatalog::getOrCreateSession: asserts no storage locks,
that the operation carries no session id and no transaction number, then
returns a shared handle to the looked-up-or-created entry.  none models a
process-terminating assertion failure (including the allowCheckingOutSessions
assertion inside the lookup-or-create step). -/
def getOrCreateSession (c : SessionCatalog) (isLocked inWriteUnitOfWork : Bool)
    (opLsid opTxnNumber : Option Nat) (lsid : Nat) :
    Option (SessionCatalog × ScopedSession) :=
  if isLocked then none
  else if opLsid.isSome then none
  else if opTxnNumber.isSome then none
  else
    match getOrCreateSessionRuntimeInfo c inWriteUnitOfWork lsid with
    | none => none
    | some (c1, sri) => some (c1, ⟨lsid, sri.gen⟩)

/-- Mirror of SessionCatalog::_releaseSession: asserts the entry is present
and checked out (none models assertion failure), clears the flag, signals the
entry's waiters, and decrements the counter. -/
def releaseSession (c : SessionCatalog) (lsid : Nat) : Option SessionCatalog :=
  match assocFind lsid c.sessions with
  | none => none
  | some sri =>
    if !sri.checkedOut then none
    else
      some { c with
               sessions := assocUpdate lsid
                 (fun s => { s with checkedOut := false }) c.sessions,
               numCheckedOutSessions := c.numCheckedOutSessions - 1 }

/-- txnState.invalidate on one entry. -/
def invalidateEntry (sri : SessionRuntimeInfo) : SessionRuntimeInfo :=
  { sri with txnState := ⟨true⟩ }

/-- Error raised by invalidateSessions. -/
inductive InvalidateError where
  | invalidOperation (code : Nat)
deriving Repr, DecidableEq

/-- Mirror of SessionCatalog::invalidateSessions.  In replica-set mode an
operation that itself carries a session id fails with uassert 40528 before
any state is touched.  Otherwise, for the single target entry (skipped
silently when absent) or for every entry: invalidate its txnState, and erase
it from the map when it is not checked out. -/
def invalidateSessions (c : SessionCatalog) (isReplSet opHasLsid : Bool)
    (singleSessionLsid : Option Nat) : SessionCatalog × Option InvalidateError :=
  if isReplSet && opHasLsid then (c, some (.invalidOperation 40528))
  else
    match singleSessionLsid with
    | some lsid =>
      match assocFind lsid c.sessions with
      | none => (c, none)
      | some sri =>
        let c1 := { c with sessions := assocUpdate lsid invalidateEntry c.sessions }
        if sri.checkedOut then (c1, none)
        else ({ c1 with sessions := assocErase lsid c1.sessions }, none)
    | none =>
      let invalidated := c.sessions.map (fun p => (p.1, invalidateEntry p.2))
      ({ c with sessions := invalidated.filter (fun p => p.2.checkedOut) }, none)

/-- Mirror of SessionCatalog::scanSessions: for each entry whose session id
matches, run the worker on its txnState (under the mutex). -/
def scanSessions (c : SessionCatalog) (matcher : Nat → Bool)
    (workerFn : TxnParticipantState → TxnParticipantState) : SessionCatalog :=
  { c with sessions := c.sessions.map (fun p =>
      if matcher p.1 then (p.1, { p.2 with txnState := workerFn p.2.txnState })
      else p) }

/-- Mirror of PreventCheckingOutSessionsBlock construction: asserts the gate
is open (none models assertion failure) and closes it. -/
def preventCheckingOutSessionsBegin (c : SessionCatalog) : Option SessionCatalog :=
  if c.allowCheckingOutSessions then
    some { c with allowCheckingOutSessions := false }
  else none

/-- Mirror of PreventCheckingOutSessionsBlock destruction: asserts the gate
is closed, reopens it and broadcasts the gate condition. -/
def preventCheckingOutSessionsEnd (c : SessionCatalog) : Option SessionCatalog :=
  if c.allowCheckingOutSessions then none
  else some { c with allowCheckingOutSessions := true }

/-- Outcome of waitForAllSessionsToBeCheckedIn. -/
inductive DrainOutcome where
  | returned
  | interrupted
  | blocked
  | invariantFailure
deriving Repr, DecidableEq

/-- Mirror of PreventCheckingOutSessionsBlock::waitForAllSessionsToBeCheckedIn:
asserts the gate is closed, then waits interruptibly until the checked-out
counter reaches zero.  The wait never mutates catalog state. -/
def waitForAllSessionsToBeCheckedIn (c : SessionCatalog) (interrupt : Bool) :
    DrainOutcome :=
  if c.allowCheckingOutSessions then .invariantFailure
  else if c.numCheckedOutSessions > 0 then
    if interrupt then .interrupted else .blocked
  else .returned

/-- The namespace of the durable session-transactions collection
(NamespaceString::kSessionTransactionsTableNamespace). -/
def kSessionTransactionsTableNamespace : String := "config.transactions"

/-- ErrorCodes::NamespaceExists. -/
def namespaceExistsCode : Nat := 48

/-- Result of the DBDirectClient createCollection call made by onStepUp, an
external collaborator: either the command succeeded, or it failed and the
command result carries an error code. -/
inductive CreateCollectionResult where
  | success
  | failed (code : Nat)
deriving Repr, DecidableEq

/-- Error surfaced by onStepUp. -/
inductive StepUpError where
  | invalidOperation (code : Nat)
  | tableCreationFailed (code : Nat) (context : String)
deriving Repr, DecidableEq

/-- Mirror of SessionCatalog::onStepUp: first invalidates all sessions, then
attempts to create the session-transactions collection; a NamespaceExists
failure is success, any other failure surfaces with a context string naming
the collection. -/
def onStepUp (c : SessionCatalog) (isReplSet opHasLsid : Bool)
    (createResult : CreateCollectionResult) : SessionCatalog × Option StepUpError :=
  match invalidateSessions c isReplSet opHasLsid none with
  | (c1, some (.invalidOperation n)) => (c1, some (.invalidOperation n))
  | (c1, none) =>
    match createResult with
    | .success => (c1, none)
    | .failed code =>
      if code = namespaceExistsCode then (c1, none)
      else (c1, some (.tableCreationFailed code
              ("Failed to create the " ++ kSessionTransactionsTableNamespace
                 ++ " collection")))

/-- The empty catalog: no sessions, gate open, nothing checked out. -/
def initialCatalog : SessionCatalog := ⟨[], true, 0, 0⟩

/-- One catalog operation, for reachability: every public entry point of the
catalog appears, with its external nondeterminism (interrupts, targets,
matcher and worker) as data. -/
inductive CatalogOp where
  | checkOut (lsid : Nat) (interruptAtGate interruptAtAvailable : Bool)
  | release (lsid : Nat)
  | getOrCreate (lsid : Nat)
  | invalidate (isReplSet opHasLsid : Bool) (target : Option Nat)
  | scan (matcher : Nat → Bool) (workerFn : TxnParticipantState → TxnParticipantState)
  | barrierBegin
  | barrierEnd
  | drain (interrupt : Bool)

/-- State transition of one catalog operation.  Outcomes that abort the
process (assertion failures) or that never return (blocked waits) contribute
the state at the point the operation stopped. -/
def applyOp (c : SessionCatalog) : CatalogOp → SessionCatalog
  | .checkOut lsid g a =>
    match checkOutSession c false false (some lsid) g a with
    | .ok c1 _ => c1
    | .interrupted c1 => c1
    | .blocked c1 => c1
    | .invariantFailure => c
  | .release lsid => (releaseSession c lsid).getD c
  | .getOrCreate lsid =>
    match getOrCreateSession c false false none none lsid with
    | some (c1, _) => c1
    | none => c
  | .invalidate r o t => (invalidateSessions c r o t).1
  | .scan m f => scanSessions c m f
  | .barrierBegin => (preventCheckingOutSessionsBegin c).getD c
  | .barrierEnd => (preventCheckingOutSessionsEnd c).getD c
  | .drain _ => c

/-- A catalog state is reachable when some sequence of operations produces it
from the empty catalog. -/
def Reachable (c : SessionCatalog) : Prop :=
  ∃ ops : List CatalogOp, List.foldl applyOp initialCatalog ops = c

/-- Well-formedness: unique session keys, and the checked-out counter equals
the number of checked-out entries. -/
def CatalogWF (c : SessionCatalog) : Prop :=
  (c.sessions.map Prod.fst).Nodup ∧
    c.numCheckedOutSessions = countCheckedOut c.sessions

/-! Router-side fan-out adapter
(src/mongo/s/multi_statement_transaction_requests_sender.cpp).  Shard ids are
Nat; command payloads are a small inductive so that attaching transaction
fields is observable. -/

/-- An outgoing command payload: either a raw command, or a command wrapped
with the transaction fields attached by a participant for a shard. -/
inductive CmdObj where
  | raw (payload : Nat)
  | withTxnFields (shardId : Nat) (base : CmdObj)
deriving Repr, DecidableEq

/-- The router's per-shard participant record: the shard it stands for and
whether a command has been marked as sent to it. -/
structure Participant where
  shardId : Nat
  commandSent : Bool
deriving Repr, DecidableEq

/-- Modelled from the spec: TransactionRouter::Participant::attachTxnFieldsIfNeeded
is an external collaborator (not in the source slice); per the spec the
participant rewrites the request payload to attach the transaction
coordination fields it demands. -/
def Participant.attachTxnFieldsIfNeeded (p : Participant) (cmd : CmdObj) : CmdObj :=
  .withTxnFields p.shardId cmd

/-- Modelled from the spec: the transaction router bound to the operation,
holding one participant record per shard. -/
structure TransactionRouter where
  participants : List (Nat × Participant)
deriving Repr, DecidableEq

/-- Modelled from the spec: TransactionRouter::getOrCreateParticipant returns
the participant record for the shard, creating it when absent. -/
def TransactionRouter.getOrCreateParticipant (r : TransactionRouter)
    (shardId : Nat) : TransactionRouter × Participant :=
  match assocFind shardId r.participants with
  | some p => (r, p)
  | none =>
    let p : Participant := ⟨shardId, false⟩
    ({ participants := r.participants ++ [(shardId, p)] }, p)

/-- Modelled from the spec: Participant::markAsCommandSent, applied to the
router's record for the shard. -/
def TransactionRouter.markAsCommandSent (r : TransactionRouter) (shardId : Nat) :
    TransactionRouter :=
  { participants := assocUpdate shardId
      (fun p => { p with commandSent := true }) r.participants }

/-- One request of the batch: target shard and command payload
(AsyncRequestsSender::Request). -/
structure Request where
  shardId : Nat
  cmdObj : CmdObj
deriving Repr, DecidableEq

/-- One response (AsyncRequestsSender::Response): the shard it came from and
its payload. -/
structure Response where
  shardId : Nat
  data : Nat
deriving Repr, DecidableEq

/-- One iteration of the attachTxnDetails loop: obtain (or create) the
router's participant for the request's target shard and append the request
with the participant-rewritten payload. -/
def attachStep (acc : TransactionRouter × List Request) (request : Request) :
    TransactionRouter × List Request :=
  let pr := acc.1.getOrCreateParticipant request.shardId
  (pr.1, acc.2 ++ [⟨request.shardId,
                    pr.2.attachTxnFieldsIfNeeded request.cmdObj⟩])

/-- Mirror of attachTxnDetails: with no transaction router bound to the
operation the batch is returned unchanged; otherwise each request's payload
is rewritten by the target shard's participant (looked up or created on the
router, whose updated state is also returned). -/
def attachTxnDetails (txnRouter : Option TransactionRouter)
    (requests : List Request) : Option TransactionRouter × List Request :=
  match txnRouter with
  | none => (none, requests)
  | some r =>
    let folded := requests.foldl attachStep (r, [])
    (some folded.1, folded.2)

/-- Mirror of MultiStatementTransactionRequestsSender: the router bound to
the operation, the batch that was handed to the underlying
AsyncRequestsSender at construction, and the responses the underlying sender
has yet to yield. -/
structure MultiStatementTransactionRequestsSender where
  txnRouter : Option TransactionRouter
  sentRequests : List Request
  pendingResponses : List Response
deriving Repr, DecidableEq

/-- Mirror of the MultiStatementTransactionRequestsSender constructor: the
batch is passed through attachTxnDetails and the result handed to the
underlying sender; pendingResponses stands for the responses the executor
will deliver. -/
def makeMultiStatementSender (txnRouter : Option TransactionRouter)
    (requests : List Request) (pendingResponses : List Response) :
    MultiStatementTransactionRequestsSender :=
  let attached := attachTxnDetails txnRouter requests
  ⟨attached.1, attached.2, pendingResponses⟩

/-- Mirror of MultiStatementTransactionRequestsSender::done. -/
def MultiStatementTransactionRequestsSender.done
    (s : MultiStatementTransactionRequestsSender) : Bool :=
  s.pendingResponses.isEmpty

/-- Mirror of MultiStatementTransactionRequestsSender::next: consume the next
response from the underlying sender; when a router is bound, mark that
response's shard's participant as command-sent after consumption.  none
models calling next with no response left (underlying sender invariant). -/
def MultiStatementTransactionRequestsSender.next
    (s : MultiStatementTransactionRequestsSender) :
    Option (MultiStatementTransactionRequestsSender × Response) :=
  match s.pendingResponses with
  | [] => none
  | result :: rest =>
    match s.txnRouter with
    | none => some ({ s with pendingResponses := rest }, result)
    | some r =>
      let stepped := r.getOrCreateParticipant result.shardId
      let r2 := stepped.1.markAsCommandSent result.shardId
      some ({ s with txnRouter := some r2, pendingResponses := rest }, result)

/-- Router sanity: every participant record is stored under its own shard
id. -/
def RouterWF (r : TransactionRouter) : Prop :=
  ∀ p ∈ r.participants, (p.2).shardId = p.1

/-! Association-list lemmas. -/

theorem assocFind_eq_none {α : Type} (k : Nat) (l : List (Nat × α)) :
    assocFind k l = none ↔ k ∉ l.map Prod.fst := by
  induction l with
  | nil => simp [assocFind]
  | cons p rest ih =>
    obtain ⟨k0, v⟩ := p
    by_cases hk : k0 = k
    · subst hk
      simp [assocFind]
    · simp [assocFind, hk, ih, Ne.symm hk]

theorem assocFind_mem {α : Type} {k : Nat} {l : List (Nat × α)} {v : α}
    (h : assocFind k l = some v) : (k, v) ∈ l := by
  induction l with
  | nil => simp [assocFind] at h
  | cons p rest ih =>
    obtain ⟨k0, w⟩ := p
    by_cases hk : k0 = k
    · subst hk
      simp [assocFind] at h
      simp [h]
    · simp [assocFind, hk] at h
      exact List.mem_cons_of_mem _ (ih h)

theorem mem_assocFind {α : Type} {k : Nat} {l : List (Nat × α)} {v : α}
    (hnd : (l.map Prod.fst).Nodup) (h : (k, v) ∈ l) : assocFind k l = some v := by
  induction l with
  | nil => simp at h
  | cons p rest ih =>
    obtain ⟨k0, w⟩ := p
    simp only [List.map_cons, List.nodup_cons] at hnd
    rcases List.mem_cons.mp h with h1 | h1
    · injection h1 with h2 h3
      subst h2
      subst h3
      simp [assocFind]
    · have hk : k0 ≠ k := by
        intro he
        subst he
        exact hnd.1 (List.mem_map_of_mem Prod.fst h1)
      simp [assocFind, hk]
      exact ih hnd.2 h1

theorem assocFind_append_self {α : Type} {k : Nat} {l : List (Nat × α)} {v : α}
    (h : assocFind k l = none) : assocFind k (l ++ [(k, v)]) = some v := by
  induction l with
  | nil => simp [assocFind]
  | cons p rest ih =>
    obtain ⟨k0, w⟩ := p
    by_cases hk : k0 = k
    · subst hk
      simp [assocFind] at h
    · simp [assocFind, hk] at h ⊢
      exact ih h

theorem assocFind_update_self {α : Type} (k : Nat) (f : α → α)
    (l : List (Nat × α)) :
    assocFind k (assocUpdate k f l) = (assocFind k l).map f := by
  induction l with
  | nil => simp [assocFind, assocUpdate]
  | cons p rest ih =>
    obtain ⟨k0, v⟩ := p
    by_cases hk : k0 = k
    · subst hk
      simp [assocFind, assocUpdate]
    · simp [assocFind, assocUpdate, hk, ih]

theorem assocUpdate_keys {α : Type} (k : Nat) (f : α → α) (l : List (Nat × α)) :
    (assocUpdate k f l).map Prod.fst = l.map Prod.fst := by
  induction l with
  | nil => simp [assocUpdate]
  | cons p rest ih =>
    obtain ⟨k0, v⟩ := p
    by_cases hk : k0 = k
    · simp [assocUpdate, hk, ih]
    · simp [assocUpdate, hk, ih]

theorem assocErase_not_mem {α : Type} {k : Nat} {l : List (Nat × α)}
    (h : k ∉ l.map Prod.fst) : assocErase k l = l := by
  induction l with
  | nil => simp [assocErase]
  | cons p rest ih =>
    obtain ⟨k0, v⟩ := p
    simp at h
    simp [assocErase] at ih ⊢
    exact ⟨fun he => absurd he.symm h.1, ih h.2⟩

theorem assocUpdate_not_mem {α : Type} {k : Nat} {f : α → α} {l : List (Nat × α)}
    (h : k ∉ l.map Prod.fst) : assocUpdate k f l = l := by
  induction l with
  | nil => simp [assocUpdate]
  | cons p rest ih =>
    obtain ⟨k0, v⟩ := p
    simp only [List.map_cons, List.mem_cons] at h
    push_neg at h
    have hk : k0 ≠ k := fun he => h.1 he.symm
    simp [assocUpdate, hk, ih h.2]

/-! Counting lemmas for the checked-out invariant. -/

theorem countCheckedOut_cons (p : Nat × SessionRuntimeInfo)
    (l : List (Nat × SessionRuntimeInfo)) :
    countCheckedOut (p :: l)
      = (if p.2.checkedOut then 1 else 0) + countCheckedOut l := by
  by_cases hp : p.2.checkedOut <;>
    simp [countCheckedOut, List.filter_cons, hp, Nat.add_comm]

theorem countCheckedOut_append_single (l : List (Nat × SessionRuntimeInfo))
    (k : Nat) (v : SessionRuntimeInfo) :
    countCheckedOut (l ++ [(k, v)])
      = countCheckedOut l + (if v.checkedOut then 1 else 0) := by
  by_cases hv : v.checkedOut <;>
    simp [countCheckedOut, List.filter_append, List.filter_cons, hv]

theorem countCheckedOut_update {k : Nat} {f : SessionRuntimeInfo → SessionRuntimeInfo}
    {l : List (Nat × SessionRuntimeInfo)} {sri : SessionRuntimeInfo}
    (hnd : (l.map Prod.fst).Nodup) (hfind : assocFind k l = some sri) :
    countCheckedOut (assocUpdate k f l) + (if sri.checkedOut then 1 else 0)
      = countCheckedOut l + (if (f sri).checkedOut then 1 else 0) := by
  induction l with
  | nil => simp [assocFind] at hfind
  | cons p rest ih =>
    obtain ⟨k0, v⟩ := p
    simp only [List.map_cons, List.nodup_cons] at hnd
    by_cases hk : k0 = k
    · subst hk
      simp [assocFind] at hfind
      subst hfind
      rw [show assocUpdate k0 f ((k0, v) :: rest)
            = (k0, f v) :: assocUpdate k0 f rest by simp [assocUpdate],
          assocUpdate_not_mem hnd.1]
      by_cases hv : v.checkedOut <;> by_cases hfv : (f v).checkedOut <;>
        simp [countCheckedOut_cons, hv, hfv] <;> omega
    · simp only [assocFind, hk, if_false] at hfind
      rw [show assocUpdate k f ((k0, v) :: rest)
            = (k0, v) :: assocUpdate k f rest by simp [assocUpdate, hk],
          countCheckedOut_cons, countCheckedOut_cons]
      have := ih hnd.2 hfind
      omega

theorem countCheckedOut_update_congr (k : Nat)
    {f : SessionRuntimeInfo → SessionRuntimeInfo}
    (hf : ∀ s, (f s).checkedOut = s.checkedOut)
    (l : List (Nat × SessionRuntimeInfo)) :
    countCheckedOut (assocUpdate k f l) = countCheckedOut l := by
  induction l with
  | nil => simp [assocUpdate]
  | cons p rest ih =>
    obtain ⟨k0, v⟩ := p
    by_cases hk : k0 = k <;>
      simp [assocUpdate, hk, countCheckedOut_cons, ih, hf]

theorem countCheckedOut_erase {k : Nat} {l : List (Nat × SessionRuntimeInfo)}
    {sri : SessionRuntimeInfo}
    (hnd : (l.map Prod.fst).Nodup) (hfind : assocFind k l = some sri)
    (hco : sri.checkedOut = false) :
    countCheckedOut (assocErase k l) = countCheckedOut l := by
  induction l with
  | nil => simp [assocFind] at hfind
  | cons p rest ih =>
    obtain ⟨k0, v⟩ := p
    simp only [List.map_cons, List.nodup_cons] at hnd
    by_cases hk : k0 = k
    · subst hk
      simp [assocFind] at hfind
      subst hfind
      rw [show assocErase k0 ((k0, v) :: rest) = assocErase k0 rest by
            simp [assocErase, List.filter_cons],
          assocErase_not_mem hnd.1, countCheckedOut_cons, hco]
      simp
    · rw [show assocErase k ((k0, v) :: rest) = (k0, v) :: assocErase k rest by
            simp [assocErase, List.filter_cons, hk],
          countCheckedOut_cons, countCheckedOut_cons]
      simp only [assocFind, hk, if_false] at hfind
      rw [ih hnd.2 hfind]

theorem countCheckedOut_map {g : Nat × SessionRuntimeInfo → Nat × SessionRuntimeInfo}
    (hg : ∀ p, ((g p).2).checkedOut = p.2.checkedOut)
    (l : List (Nat × SessionRuntimeInfo)) :
    countCheckedOut (l.map g) = countCheckedOut l := by
  induction l with
  | nil => simp [countCheckedOut]
  | cons p rest ih =>
    rw [List.map_cons, countCheckedOut_cons, countCheckedOut_cons, hg, ih]

theorem assocKeys_map {α : Type} {g : Nat × α → Nat × α}
    (hg : ∀ p, (g p).1 = p.1) (l : List (Nat × α)) :
    (l.map g).map Prod.fst = l.map Prod.fst := by
  induction l with
  | nil => simp
  | cons p rest ih => rw [List.map_cons, List.map_cons, List.map_cons, hg, ih]

theorem countCheckedOut_filter_self (x : List (Nat × SessionRuntimeInfo)) :
    countCheckedOut (x.filter fun p => p.2.checkedOut) = countCheckedOut x := by
  unfold countCheckedOut
  rw [List.filter_filter]
  simp

theorem countCheckedOut_invalidateAll (l : List (Nat × SessionRuntimeInfo)) :
    countCheckedOut
        ((l.map fun p => (p.1, invalidateEntry p.2)).filter fun p => p.2.checkedOut)
      = countCheckedOut l := by
  rw [countCheckedOut_filter_self]
  exact countCheckedOut_map (g := fun p => (p.1, invalidateEntry p.2))
    (fun p => rfl) l

theorem filter_keys_nodup {α : Type} {l : List (Nat × α)} (q : Nat × α → Bool)
    (hnd : (l.map Prod.fst).Nodup) : ((l.filter q).map Prod.fst).Nodup := by
  exact List.Nodup.sublist ((List.filter_sublist l).map Prod.fst) hnd

/-! Characterization of the lookup-or-create step. -/

theorem getOrCreateSRI_cases {c c1 : SessionCatalog} {w : Bool} {lsid : Nat}
    {sri : SessionRuntimeInfo}
    (h : getOrCreateSessionRuntimeInfo c w lsid = some (c1, sri)) :
    c.allowCheckingOutSessions = true ∧ w = false ∧
    ((assocFind lsid c.sessions = some sri ∧ c1 = c) ∨
     (assocFind lsid c.sessions = none ∧
      sri = ⟨lsid, ⟨false⟩, false, c.nextGen⟩ ∧
      c1 = { c with sessions := c.sessions ++ [(lsid, sri)],
                    nextGen := c.nextGen + 1 })) := by
  unfold getOrCreateSessionRuntimeInfo at h
  by_cases hw : w
  · simp [hw] at h
  · simp only [hw, if_false] at h
    by_cases ha : c.allowCheckingOutSessions
    · simp only [ha, Bool.not_true, Bool.false_eq_true, if_false] at h
      refine ⟨ha, by simp [hw], ?_⟩
      cases hf : assocFind lsid c.sessions with
      | some s =>
        rw [hf] at h
        simp at h
        exact Or.inl ⟨by rw [h.2.symm], h.1.symm⟩
      | none =>
        rw [hf] at h
        simp at h
        exact Or.inr ⟨rfl, h.2.symm, by rw [← h.1, ← h.2, ha]⟩
    · simp [ha] at h

theorem getOrCreateSRI_found {c c1 : SessionCatalog} {w : Bool} {lsid : Nat}
    {sri : SessionRuntimeInfo}
    (h : getOrCreateSessionRuntimeInfo c w lsid = some (c1, sri)) :
    assocFind lsid c1.sessions = some sri ∧
    c1.allowCheckingOutSessions = c.allowCheckingOutSessions ∧
    c1.numCheckedOutSessions = c.numCheckedOutSessions := by
  rcases (getOrCreateSRI_cases h).2.2 with ⟨hf, rfl⟩ | ⟨hf, hsri, rfl⟩
  · exact ⟨hf, rfl, rfl⟩
  · refine ⟨?_, rfl, rfl⟩
    simpa using assocFind_append_self (v := sri) hf

theorem getOrCreateSRI_wf {c c1 : SessionCatalog} {w : Bool} {lsid : Nat}
    {sri : SessionRuntimeInfo}
    (h : getOrCreateSessionRuntimeInfo c w lsid = some (c1, sri))
    (hwf : CatalogWF c) :
    CatalogWF c1 ∧ countCheckedOut c1.sessions = countCheckedOut c.sessions := by
  rcases (getOrCreateSRI_cases h).2.2 with ⟨hf, rfl⟩ | ⟨hf, hsri, rfl⟩
  · exact ⟨hwf, rfl⟩
  · have hmem : lsid ∉ c.sessions.map Prod.fst := (assocFind_eq_none _ _).mp hf
    have hcount : countCheckedOut (c.sessions ++ [(lsid, sri)])
        = countCheckedOut c.sessions := by
      rw [countCheckedOut_append_single]
      simp [hsri]
    refine ⟨⟨?_, ?_⟩, hcount⟩
    · show ((c.sessions ++ [(lsid, sri)]).map Prod.fst).Nodup
      rw [List.map_append]
      rw [List.nodup_append]
      refine ⟨hwf.1, by simp, ?_⟩
      intro a ha1 ha2
      simp at ha2
      subst ha2
      exact hmem ha1
    · show c.numCheckedOutSessions = countCheckedOut (c.sessions ++ [(lsid, sri)])
      rw [hcount]
      exact hwf.2

/-! Characterization of checkOutSession. -/

theorem checkOut_ok_aux {c c1 : SessionCatalog} {w : Bool} {lsid : Nat}
    {g a : Bool} {h : ScopedCheckedOutSession}
    (hok : checkOutSession c false w (some lsid) g a = .ok c1 h) :
    c.allowCheckingOutSessions = true ∧ h.lsid = lsid ∧
    ∃ cm sri, getOrCreateSessionRuntimeInfo c w lsid = some (cm, sri) ∧
      sri.checkedOut = false ∧ h.gen = sri.gen ∧
      c1 = { cm with
               sessions := assocUpdate lsid
                 (fun s => { s with checkedOut := true }) cm.sessions,
               numCheckedOutSessions := cm.numCheckedOutSessions + 1 } := by
  unfold checkOutSession at hok
  by_cases ha : c.allowCheckingOutSessions
  · simp only [ha, Bool.not_true, Bool.false_eq_true, if_false, if_true,
      Bool.true_eq_false] at hok
    cases hg : getOrCreateSessionRuntimeInfo c w lsid with
    | none => rw [hg] at hok; simp at hok
    | some pr =>
      obtain ⟨cm, sri⟩ := pr
      rw [hg] at hok
      simp only at hok
      by_cases hco : sri.checkedOut
      · by_cases hia : a <;> simp [hco, hia] at hok
      · simp only [hco, Bool.false_eq_true, if_false] at hok
        injection hok with h1 h2
        exact ⟨ha, by rw [← h2], cm, sri, rfl, by simp [hco], by rw [← h2], h1.symm⟩
  · simp only [ha, Bool.not_false] at hok
    by_cases hig : g <;> simp [hig] at hok

theorem checkOut_interrupted_eq {c c1 : SessionCatalog} {lk w : Bool}
    {ol : Option Nat} {g a : Bool}
    (hi : checkOutSession c lk w ol g a = .interrupted c1) : c1 = c := by
  unfold checkOutSession at hi
  by_cases hl : lk
  · simp [hl] at hi
  · simp only [hl, Bool.false_eq_true, if_false] at hi
    cases ol with
    | none => simp at hi
    | some lsid =>
      simp only at hi
      by_cases ha : c.allowCheckingOutSessions
      · simp only [ha, Bool.not_true, Bool.false_eq_true, if_false] at hi
        cases hg : getOrCreateSessionRuntimeInfo c w lsid with
        | none => rw [hg] at hi; simp at hi
        | some pr =>
          obtain ⟨cm, sri⟩ := pr
          rw [hg] at hi
          simp only at hi
          by_cases hco : sri.checkedOut
          · simp only [hco, if_true] at hi
            by_cases hia : a
            · simp only [hia, if_true] at hi
              injection hi with h1
              subst h1
              rcases (getOrCreateSRI_cases hg).2.2 with ⟨hf, rfl⟩ | ⟨hf, hsri, rfl⟩
              · rfl
              · rw [hsri] at hco
                simp at hco
            · simp [hia] at hi
          · simp only [hco, Bool.false_eq_true, if_false] at hi
            by_cases hia : a <;> simp [hia] at hi
      · simp only [ha, Bool.not_false, if_true] at hi
        by_cases hig : g
        · simp only [hig, if_true] at hi
          injection hi with h1
          exact h1.symm
        · simp [hig] at hi

theorem checkOut_blocked_eq {c c1 : SessionCatalog} {lk w : Bool}
    {ol : Option Nat} {g a : Bool}
    (hb : checkOutSession c lk w ol g a = .blocked c1) : c1 = c := by
  unfold checkOutSession at hb
  by_cases hl : lk
  · simp [hl] at hb
  · simp only [hl, Bool.false_eq_true, if_false] at hb
    cases ol with
    | none => simp at hb
    | some lsid =>
      simp only at hb
      by_cases ha : c.allowCheckingOutSessions
      · simp only [ha, Bool.not_true, Bool.false_eq_true, if_false] at hb
        cases hg : getOrCreateSessionRuntimeInfo c w lsid with
        | none => rw [hg] at hb; simp at hb
        | some pr =>
          obtain ⟨cm, sri⟩ := pr
          rw [hg] at hb
          simp only at hb
          by_cases hco : sri.checkedOut
          · simp only [hco, if_true] at hb
            by_cases hia : a
            · simp [hia] at hb
            · simp only [hia, Bool.false_eq_true, if_false] at hb
              injection hb with h1
              subst h1
              rcases (getOrCreateSRI_cases hg).2.2 with ⟨hf, rfl⟩ | ⟨hf, hsri, rfl⟩
              · rfl
              · rw [hsri] at hco
                simp at hco
          · simp only [hco, Bool.false_eq_true, if_false] at hb
            by_cases hia : a <;> simp [hia] at hb
      · simp only [ha, Bool.not_false, if_true] at hb
        by_cases hig : g
        · simp [hig] at hb
        · simp only [hig, Bool.false_eq_true, if_false] at hb
          injection hb with h1
          exact h1.symm

theorem invalidateEntry_checkedOut (s : SessionRuntimeInfo) :
    (invalidateEntry s).checkedOut = s.checkedOut := rfl

/-! Preservation of well-formedness by every catalog operation. -/

theorem checkOut_ok_wf {c c1 : SessionCatalog} {w g a : Bool} {lsid : Nat}
    {h : ScopedCheckedOutSession}
    (hok : checkOutSession c false w (some lsid) g a = .ok c1 h)
    (hwf : CatalogWF c) : CatalogWF c1 := by
  obtain ⟨ha, hl, cm, sri, hg, hco, hgen, rfl⟩ := checkOut_ok_aux hok
  obtain ⟨hwfm, hcnt⟩ := getOrCreateSRI_wf hg hwf
  obtain ⟨hfind, hallow, hnum⟩ := getOrCreateSRI_found hg
  refine ⟨?_, ?_⟩
  · show ((assocUpdate lsid (fun s => { s with checkedOut := true })
        cm.sessions).map Prod.fst).Nodup
    rw [assocUpdate_keys]
    exact hwfm.1
  · show cm.numCheckedOutSessions + 1
      = countCheckedOut (assocUpdate lsid
          (fun s => { s with checkedOut := true }) cm.sessions)
    have hcu := countCheckedOut_update
      (f := fun s => { s with checkedOut := true }) hwfm.1 hfind
    simp only [hco, if_false, Bool.false_eq_true] at hcu
    simp at hcu
    have := hwfm.2
    omega

theorem releaseSession_wf {c c2 : SessionCatalog} {lsid : Nat}
    (hr : releaseSession c lsid = some c2) (hwf : CatalogWF c) : CatalogWF c2 := by
  unfold releaseSession at hr
  cases hf : assocFind lsid c.sessions with
  | none => rw [hf] at hr; simp at hr
  | some sri =>
    rw [hf] at hr
    by_cases hco : sri.checkedOut
    · simp only [hco, Bool.not_true, Bool.false_eq_true, if_false] at hr
      injection hr with h1
      subst h1
      refine ⟨?_, ?_⟩
      · show ((assocUpdate lsid (fun s => { s with checkedOut := false })
            c.sessions).map Prod.fst).Nodup
        rw [assocUpdate_keys]
        exact hwf.1
      · show c.numCheckedOutSessions - 1
          = countCheckedOut (assocUpdate lsid
              (fun s => { s with checkedOut := false }) c.sessions)
        have hcu := countCheckedOut_update
          (f := fun s => { s with checkedOut := false }) hwf.1 hf
        simp only [hco, if_true] at hcu
        simp at hcu
        have := hwf.2
        omega
    · simp [hco] at hr

theorem getOrCreateSession_some {c c1 : SessionCatalog} {lk w : Bool}
    {ol otn : Option Nat} {lsid : Nat} {ss : ScopedSession}
    (h : getOrCreateSession c lk w ol otn lsid = some (c1, ss)) :
    ∃ sri, getOrCreateSessionRuntimeInfo c w lsid = some (c1, sri) ∧
      ss = ⟨lsid, sri.gen⟩ := by
  unfold getOrCreateSession at h
  by_cases hlk : lk
  · simp [hlk] at h
  · simp only [hlk, Bool.false_eq_true, if_false] at h
    by_cases hol : ol.isSome
    · simp [hol] at h
    · simp only [hol, Bool.false_eq_true, if_false] at h
      by_cases hot : otn.isSome
      · simp [hot] at h
      · simp only [hot, Bool.false_eq_true, if_false] at h
        cases hg : getOrCreateSessionRuntimeInfo c w lsid with
        | none => rw [hg] at h; simp at h
        | some pr =>
          obtain ⟨cm, sri⟩ := pr
          rw [hg] at h
          simp only at h
          injection h with h1
          injection h1 with h2 h3
          exact ⟨sri, by rw [h2], h3.symm⟩

theorem invalidateSessions_wf {c : SessionCatalog} {r o : Bool} {t : Option Nat}
    (hwf : CatalogWF c) : CatalogWF (invalidateSessions c r o t).1 := by
  unfold invalidateSessions
  by_cases hro : r && o
  · simp only [hro, if_true]
    exact hwf
  · simp only [hro, Bool.false_eq_true, if_false]
    cases t with
    | none =>
      refine ⟨?_, ?_⟩
      · apply filter_keys_nodup
        rw [assocKeys_map (g := fun p => (p.1, invalidateEntry p.2))
          (fun p => rfl)]
        exact hwf.1
      · show c.numCheckedOutSessions = _
        rw [countCheckedOut_invalidateAll]
        exact hwf.2
    | some lsid =>
      cases hf : assocFind lsid c.sessions with
      | none =>
        simp only [hf]
        exact hwf
      | some sri =>
        simp only [hf]
        by_cases hco : sri.checkedOut
        · simp only [hco, if_true]
          refine ⟨?_, ?_⟩
          · show ((assocUpdate lsid invalidateEntry c.sessions).map Prod.fst).Nodup
            rw [assocUpdate_keys]
            exact hwf.1
          · show c.numCheckedOutSessions
              = countCheckedOut (assocUpdate lsid invalidateEntry c.sessions)
            rw [countCheckedOut_update_congr lsid invalidateEntry_checkedOut]
            exact hwf.2
        · simp only [hco, Bool.false_eq_true, if_false]
          have hnd2 : ((assocUpdate lsid invalidateEntry c.sessions).map
              Prod.fst).Nodup := by
            rw [assocUpdate_keys]
            exact hwf.1
          have hf2 : assocFind lsid (assocUpdate lsid invalidateEntry c.sessions)
              = some (invalidateEntry sri) := by
            rw [assocFind_update_self, hf]
            rfl
          refine ⟨?_, ?_⟩
          · show ((assocErase lsid (assocUpdate lsid invalidateEntry
                c.sessions)).map Prod.fst).Nodup
            unfold assocErase
            exact filter_keys_nodup _ hnd2
          · show c.numCheckedOutSessions
              = countCheckedOut (assocErase lsid
                  (assocUpdate lsid invalidateEntry c.sessions))
            rw [countCheckedOut_erase hnd2 hf2
                (by rw [invalidateEntry_checkedOut]; simpa using hco),
              countCheckedOut_update_congr lsid invalidateEntry_checkedOut]
            exact hwf.2

theorem scanSessions_wf {c : SessionCatalog} {m : Nat → Bool}
    {f : TxnParticipantState → TxnParticipantState}
    (hwf : CatalogWF c) : CatalogWF (scanSessions c m f) := by
  refine ⟨?_, ?_⟩
  · show ((c.sessions.map (fun p =>
        if m p.1 then (p.1, { p.2 with txnState := f p.2.txnState })
        else p)).map Prod.fst).Nodup
    rw [assocKeys_map
      (g := fun p : Nat × SessionRuntimeInfo =>
        if m p.1 then (p.1, { p.2 with txnState := f p.2.txnState }) else p)
      (fun p => by by_cases hm : m p.1 <;> simp [hm])]
    exact hwf.1
  · show c.numCheckedOutSessions = countCheckedOut (c.sessions.map (fun p =>
        if m p.1 then (p.1, { p.2 with txnState := f p.2.txnState })
        else p))
    rw [countCheckedOut_map
      (g := fun p : Nat × SessionRuntimeInfo =>
        if m p.1 then (p.1, { p.2 with txnState := f p.2.txnState }) else p)
      (fun p => by by_cases hm : m p.1 <;> simp [hm])]
    exact hwf.2

theorem applyOp_wf {c : SessionCatalog} (op : CatalogOp) (hwf : CatalogWF c) :
    CatalogWF (applyOp c op) := by
  cases op with
  | checkOut lsid g a =>
    simp only [applyOp]
    cases hE : checkOutSession c false false (some lsid) g a with
    | ok c1 h => exact checkOut_ok_wf hE hwf
    | interrupted c1 => rw [checkOut_interrupted_eq hE]; exact hwf
    | blocked c1 => rw [checkOut_blocked_eq hE]; exact hwf
    | invariantFailure => exact hwf
  | release lsid =>
    simp only [applyOp]
    cases hR : releaseSession c lsid with
    | none => simp only [Option.getD_none]; exact hwf
    | some c2 => simp only [Option.getD_some]; exact releaseSession_wf hR hwf
  | getOrCreate lsid =>
    simp only [applyOp]
    cases hG : getOrCreateSession c false false none none lsid with
    | none => exact hwf
    | some pr =>
      obtain ⟨c1, ss⟩ := pr
      obtain ⟨sri, hg, hss⟩ := getOrCreateSession_some hG
      exact (getOrCreateSRI_wf hg hwf).1
  | invalidate r o t =>
    exact invalidateSessions_wf hwf
  | scan m f =>
    exact scanSessions_wf hwf
  | barrierBegin =>
    simp only [applyOp]
    unfold preventCheckingOutSessionsBegin
    by_cases ha : c.allowCheckingOutSessions
    · simp only [ha, if_true, Option.getD_some]
      exact ⟨hwf.1, hwf.2⟩
    · simp only [ha, if_false, Option.getD_none, Bool.false_eq_true]
      exact hwf
  | barrierEnd =>
    simp only [applyOp]
    unfold preventCheckingOutSessionsEnd
    by_cases ha : c.allowCheckingOutSessions
    · simp only [ha, if_true, Option.getD_none]
      exact hwf
    · simp only [ha, if_false, Option.getD_some, Bool.false_eq_true]
      exact ⟨hwf.1, hwf.2⟩
  | drain i =>
    exact hwf

theorem foldl_applyOp_wf (ops : List CatalogOp) (c0 : SessionCatalog)
    (hwf : CatalogWF c0) : CatalogWF (List.foldl applyOp c0 ops) := by
  induction ops generalizing c0 with
  | nil => simpa using hwf
  | cons op rest ih => simpa using ih (applyOp c0 op) (applyOp_wf op hwf)

theorem initialCatalog_wf : CatalogWF initialCatalog :=
  ⟨List.nodup_nil, rfl⟩

theorem reachable_wf {c : SessionCatalog} (h : Reachable c) : CatalogWF c := by
  obtain ⟨ops, rfl⟩ := h
  exact foldl_applyOp_wf ops initialCatalog initialCatalog_wf

theorem assocFind_erase_self {α : Type} (k : Nat) (l : List (Nat × α)) :
    assocFind k (assocErase k l) = none := by
  induction l with
  | nil => simp [assocErase, assocFind]
  | cons p rest ih =>
    obtain ⟨k0, v⟩ := p
    by_cases hk : k0 = k
    · subst hk
      rw [show assocErase k0 ((k0, v) :: rest) = assocErase k0 rest by
            simp [assocErase, List.filter_cons]]
      exact ih
    · rw [show assocErase k ((k0, v) :: rest) = (k0, v) :: assocErase k rest by
            simp [assocErase, List.filter_cons, hk]]
      simp [assocFind, hk]
      exact ih

theorem assocFind_of_not_mem {α : Type} {k : Nat} {l : List (Nat × α)}
    (h : k ∉ l.map Prod.fst) : assocFind k l = none :=
  (assocFind_eq_none k l).mpr h

theorem assocFind_invalidateAll {l : List (Nat × SessionRuntimeInfo)} {k : Nat}
    {sri : SessionRuntimeInfo}
    (hnd : (l.map Prod.fst).Nodup) (hf : assocFind k l = some sri) :
    assocFind k
        ((l.map fun p => (p.1, invalidateEntry p.2)).filter fun p => p.2.checkedOut)
      = if sri.checkedOut then some (invalidateEntry sri) else none := by
  have hndm : (((l.map fun p => (p.1, invalidateEntry p.2)).filter
      fun p => p.2.checkedOut).map Prod.fst).Nodup := by
    apply filter_keys_nodup
    rw [assocKeys_map (g := fun p => (p.1, invalidateEntry p.2)) (fun p => rfl)]
    exact hnd
  by_cases hco : sri.checkedOut
  · rw [if_pos hco]
    apply mem_assocFind hndm
    apply List.mem_filter_of_mem
    · exact List.mem_map_of_mem (fun p => (p.1, invalidateEntry p.2))
        (assocFind_mem hf)
    · simpa [invalidateEntry_checkedOut] using hco
  · rw [if_neg hco]
    apply assocFind_of_not_mem
    intro hmem
    rw [List.mem_map] at hmem
    obtain ⟨p, hp, hpk⟩ := hmem
    rw [List.mem_filter] at hp
    obtain ⟨hpmem, hpq⟩ := hp
    rw [List.mem_map] at hpmem
    obtain ⟨p0, hp0, rfl⟩ := hpmem
    have hk0 : p0.1 = k := hpk
    have hfind0 : assocFind k l = some p0.2 := by
      have hmem0 : (k, p0.2) ∈ l := by
        rw [← hk0]
        exact hp0
      exact mem_assocFind hnd hmem0
    rw [hf] at hfind0
    injection hfind0 with he
    apply hco
    rw [he]
    simpa [invalidateEntry_checkedOut] using hpq

theorem releaseSession_some {c c2 : SessionCatalog} {lsid : Nat}
    (hr : releaseSession c lsid = some c2) :
    ∃ sri, assocFind lsid c.sessions = some sri ∧ sri.checkedOut = true ∧
      c2 = { c with
               sessions := assocUpdate lsid
                 (fun x => { x with checkedOut := false }) c.sessions,
               numCheckedOutSessions := c.numCheckedOutSessions - 1 } := by
  unfold releaseSession at hr
  cases hf : assocFind lsid c.sessions with
  | none => rw [hf] at hr; simp at hr
  | some sri =>
    rw [hf] at hr
    by_cases hco : sri.checkedOut
    · simp only [hco, Bool.not_true, Bool.false_eq_true, if_false] at hr
      injection hr with hh
      exact ⟨sri, rfl, by simp [hco], hh.symm⟩
    · simp [hco] at hr

/-! Router-side lemmas. -/

theorem getOrCreateParticipant_spec (r : TransactionRouter) (hr : RouterWF r)
    (s : Nat) :
    (r.getOrCreateParticipant s).2.shardId = s ∧
    RouterWF (r.getOrCreateParticipant s).1 ∧
    assocFind s ((r.getOrCreateParticipant s).1).participants
      = some (r.getOrCreateParticipant s).2 := by
  unfold TransactionRouter.getOrCreateParticipant
  cases hf : assocFind s r.participants with
  | some p =>
    simp only
    refine ⟨?_, hr, hf⟩
    have := hr _ (assocFind_mem hf)
    simpa using this
  | none =>
    simp only
    refine ⟨by simp, ?_, ?_⟩
    · intro q hq
      rcases List.mem_append.mp hq with hq1 | hq1
      · exact hr q hq1
      · simp at hq1
        rw [hq1]
    · exact assocFind_append_self hf

theorem attachFold_spec (requests : List Request) :
    ∀ (r : TransactionRouter) (acc : List Request), RouterWF r →
      (requests.foldl attachStep (r, acc)).2
        = acc ++ requests.map fun q =>
            ⟨q.shardId, CmdObj.withTxnFields q.shardId q.cmdObj⟩ := by
  induction requests with
  | nil => intro r acc hr; simp
  | cons q rest ih =>
    intro r acc hr
    obtain ⟨hs, hw, hfind⟩ := getOrCreateParticipant_spec r hr q.shardId
    rw [List.foldl_cons]
    have hstep : attachStep (r, acc) q
        = ((r.getOrCreateParticipant q.shardId).1,
           acc ++ [⟨q.shardId, CmdObj.withTxnFields q.shardId q.cmdObj⟩]) := by
      show ((r.getOrCreateParticipant q.shardId).1,
        acc ++ [⟨q.shardId, CmdObj.withTxnFields
          (r.getOrCreateParticipant q.shardId).2.shardId q.cmdObj⟩]) = _
      rw [hs]
    rw [hstep, ih _ _ hw]
    simp

theorem attachTxnDetails_some_spec (r : TransactionRouter) (hr : RouterWF r)
    (requests : List Request) :
    (attachTxnDetails (some r) requests).2
      = requests.map fun q =>
          ⟨q.shardId, CmdObj.withTxnFields q.shardId q.cmdObj⟩ := by
  unfold attachTxnDetails
  simpa using attachFold_spec requests r [] hr

theorem next_marks_commandSent
    (s s' : MultiStatementTransactionRequestsSender) (resp : Response)
    (r : TransactionRouter) (hwr : RouterWF r)
    (hr : s.txnRouter = some r) (hn : s.next = some (s', resp)) :
    ∃ r' p, s'.txnRouter = some r' ∧
      assocFind resp.shardId r'.participants = some p ∧
      p.commandSent = true := by
  unfold MultiStatementTransactionRequestsSender.next at hn
  cases hp : s.pendingResponses with
  | nil => rw [hp] at hn; simp at hn
  | cons result rest =>
    rw [hp, hr] at hn
    simp only at hn
    injection hn with h1
    injection h1 with ha hb
    subst hb
    obtain ⟨hs, hw, hfind⟩ := getOrCreateParticipant_spec r hwr result.shardId
    refine ⟨((r.getOrCreateParticipant result.shardId).1).markAsCommandSent
        result.shardId,
      { (r.getOrCreateParticipant result.shardId).2 with commandSent := true },
      ?_, ?_, rfl⟩
    · rw [← ha]
    · unfold TransactionRouter.markAsCommandSent
      show assocFind result.shardId (assocUpdate result.shardId
        (fun p => { p with commandSent := true })
        ((r.getOrCreateParticipant result.shardId).1).participants)
        = some { (r.getOrCreateParticipant result.shardId).2 with
                   commandSent := true }
      rw [assocFind_update_self, hfind]
      rfl

/-! Claim theorems. -/

/-- C1: if check_out fails with Interrupted (the operation is canceled or
deadlined while waiting on the gate or on the per-entry availability
condition), the catalog state after the failed call equals the pre-call
state: numCheckedOut is unchanged and the sessions map is unchanged, so in
particular no entry was created for the requested session id. -/
theorem checkOut_interrupted_no_side_effects
    (c c1 : SessionCatalog) (lk w : Bool) (ol : Option Nat) (g a : Bool)
    (hi : checkOutSession c lk w ol g a = .interrupted c1) :
    c1.numCheckedOutSessions = c.numCheckedOutSessions ∧
    c1.sessions = c.sessions := by
  rw [checkOut_interrupted_eq hi]
  exact ⟨rfl, rfl⟩

theorem checkOut_interrupted_no_side_effects_witness :
    (⟨[(7, ⟨7, ⟨false⟩, true, 0⟩)], true, 1, 1⟩
        : SessionCatalog).numCheckedOutSessions
      = (⟨[(7, ⟨7, ⟨false⟩, true, 0⟩)], true, 1, 1⟩
        : SessionCatalog).numCheckedOutSessions ∧
    (⟨[(7, ⟨7, ⟨false⟩, true, 0⟩)], true, 1, 1⟩ : SessionCatalog).sessions
      = (⟨[(7, ⟨7, ⟨false⟩, true, 0⟩)], true, 1, 1⟩ : SessionCatalog).sessions :=
  checkOut_interrupted_no_side_effects
    ⟨[(7, ⟨7, ⟨false⟩, true, 0⟩)], true, 1, 1⟩
    ⟨[(7, ⟨7, ⟨false⟩, true, 0⟩)], true, 1, 1⟩
    false false (some 7) false true (by decide)

/-- C5: in replica-set replication mode, invalidation requested by an
operation that itself carries a session id fails with InvalidOperation
(uassert code 40528) for any target, and the failure occurs before any entry
is invalidated or erased: the catalog component of the result is the
unchanged input state. -/
theorem invalidate_replSet_sid_fails (c : SessionCatalog) (t : Option Nat) :
    invalidateSessions c true true t
      = (c, some (.invalidOperation 40528)) := by
  unfold invalidateSessions
  simp

/-- C10: while a quiesce barrier is live (the gate closed by
preventCheckingOutSessionsBegin), getOrCreateSession hits the
allowCheckingOutSessions invariant inside the lookup-or-create step: the
call is a process-terminating assertion failure (the model's none outcome),
not a blocking wait at the gate. -/
theorem getOrCreateSession_fails_under_barrier
    (c c1 : SessionCatalog) (lsid : Nat) (lk w : Bool) (ol otn : Option Nat)
    (hb : preventCheckingOutSessionsBegin c = some c1) :
    getOrCreateSession c1 lk w ol otn lsid = none := by
  unfold preventCheckingOutSessionsBegin at hb
  by_cases ha : c.allowCheckingOutSessions
  · simp only [ha, if_true] at hb
    injection hb with hb1
    subst hb1
    cases lk <;> cases w <;> cases ol <;> cases otn <;>
      simp [getOrCreateSession, getOrCreateSessionRuntimeInfo]
  · simp [ha] at hb

theorem getOrCreateSession_fails_under_barrier_witness :
    getOrCreateSession ⟨[], false, 0, 0⟩ false false none none 0 = none :=
  getOrCreateSession_fails_under_barrier initialCatalog ⟨[], false, 0, 0⟩ 0
    false false none none (by decide)

/-- C3: in every catalog state reachable by any sequence of check-out,
release, get-or-create, invalidate, scan and quiesce-barrier operations,
numCheckedOut equals the number of entries in the sessions map whose
checked-out flag is true, and every entry with the flag set is present in
(found by) the map. -/
theorem reachable_checkedOut_invariant (c : SessionCatalog) (h : Reachable c) :
    c.numCheckedOutSessions = countCheckedOut c.sessions ∧
    ∀ k sri, (k, sri) ∈ c.sessions → sri.checkedOut = true →
      assocFind k c.sessions = some sri := by
  have hwf := reachable_wf h
  exact ⟨hwf.2, fun k sri hm _ => mem_assocFind hwf.1 hm⟩

theorem reachable_checkedOut_invariant_witness :
    (⟨[(0, ⟨0, ⟨false⟩, true, 0⟩)], true, 1, 1⟩
        : SessionCatalog).numCheckedOutSessions
      = countCheckedOut (⟨[(0, ⟨0, ⟨false⟩, true, 0⟩)], true, 1, 1⟩
        : SessionCatalog).sessions ∧
    ∀ k sri,
      (k, sri) ∈ (⟨[(0, ⟨0, ⟨false⟩, true, 0⟩)], true, 1, 1⟩
        : SessionCatalog).sessions →
      sri.checkedOut = true →
      assocFind k (⟨[(0, ⟨0, ⟨false⟩, true, 0⟩)], true, 1, 1⟩
        : SessionCatalog).sessions = some sri :=
  reachable_checkedOut_invariant ⟨[(0, ⟨0, ⟨false⟩, true, 0⟩)], true, 1, 1⟩
    ⟨[CatalogOp.checkOut 0 false false], by decide⟩

/-- C7: quiesce-barrier construction requires the gate open (so barriers
never nest) and closes it; destruction requires it closed and reopens it,
broadcasting the gate condition; while the barrier is live no check_out can
return a handle; and the drain wait returns only in a state whose
checked-out counter is zero. -/
theorem quiesce_barrier_spec (c : SessionCatalog) :
    (c.allowCheckingOutSessions = true →
      preventCheckingOutSessionsBegin c
        = some { c with allowCheckingOutSessions := false }) ∧
    (c.allowCheckingOutSessions = false →
      preventCheckingOutSessionsBegin c = none) ∧
    (c.allowCheckingOutSessions = false →
      preventCheckingOutSessionsEnd c
        = some { c with allowCheckingOutSessions := true }) ∧
    (c.allowCheckingOutSessions = true →
      preventCheckingOutSessionsEnd c = none) ∧
    (c.allowCheckingOutSessions = false →
      ∀ lk w ol g a c1 h, checkOutSession c lk w ol g a ≠ .ok c1 h) ∧
    (∀ i, waitForAllSessionsToBeCheckedIn c i = .returned →
      c.numCheckedOutSessions = 0) := by
  refine ⟨?_, ?_, ?_, ?_, ?_, ?_⟩
  · intro ha
    simp [preventCheckingOutSessionsBegin, ha]
  · intro ha
    simp [preventCheckingOutSessionsBegin, ha]
  · intro ha
    simp [preventCheckingOutSessionsEnd, ha]
  · intro ha
    simp [preventCheckingOutSessionsEnd, ha]
  · intro ha lk w ol g a c1 h hok
    unfold checkOutSession at hok
    by_cases hlk : lk
    · simp [hlk] at hok
    · simp only [hlk, Bool.false_eq_true, if_false] at hok
      cases ol with
      | none => simp at hok
      | some lsid =>
        simp only [ha, Bool.not_false, if_true] at hok
        by_cases hg : g <;> simp [hg] at hok
  · intro i hret
    unfold waitForAllSessionsToBeCheckedIn at hret
    by_cases ha : c.allowCheckingOutSessions
    · simp [ha] at hret
    · simp only [ha, Bool.false_eq_true, if_false] at hret
      by_cases hn : c.numCheckedOutSessions > 0
      · by_cases hi : i <;> simp [hn, hi] at hret
      · omega

theorem quiesce_barrier_spec_witness :
    preventCheckingOutSessionsBegin ⟨[], true, 0, 0⟩
        = some ⟨[], false, 0, 0⟩ ∧
    (⟨[], false, 0, 0⟩ : SessionCatalog).numCheckedOutSessions = 0 :=
  ⟨(quiesce_barrier_spec ⟨[], true, 0, 0⟩).1 rfl,
   (quiesce_barrier_spec ⟨[], false, 0, 0⟩).2.2.2.2.2 false (by decide)⟩

/-- C2: a successful check_out performs exactly these steps in order: the
gate was open (allowCheckingOutSessions true), the entry for the sid was
looked up or created, the entry's checked-out flag was false, the flag was
set and the counter incremented by one, and the returned handle is bound to
that entry; on return the entry for the sid is present with the flag set. -/
theorem checkOut_success_steps (c c1 : SessionCatalog) (w : Bool) (lsid : Nat)
    (g a : Bool) (h : ScopedCheckedOutSession)
    (hok : checkOutSession c false w (some lsid) g a = .ok c1 h) :
    c.allowCheckingOutSessions = true ∧
    h.lsid = lsid ∧
    (∃ cm sri, getOrCreateSessionRuntimeInfo c w lsid = some (cm, sri) ∧
      sri.checkedOut = false ∧ h.gen = sri.gen ∧
      c1 = { cm with
               sessions := assocUpdate lsid
                 (fun s => { s with checkedOut := true }) cm.sessions,
               numCheckedOutSessions := cm.numCheckedOutSessions + 1 }) ∧
    c1.numCheckedOutSessions = c.numCheckedOutSessions + 1 ∧
    (∃ sri1, assocFind lsid c1.sessions = some sri1 ∧
      sri1.checkedOut = true) := by
  obtain ⟨ha, hl, cm, sri, hg, hco, hgen, hc1⟩ := checkOut_ok_aux hok
  obtain ⟨hfind, hallow, hnum⟩ := getOrCreateSRI_found hg
  refine ⟨ha, hl, ⟨cm, sri, hg, hco, hgen, hc1⟩, ?_, ?_⟩
  · rw [hc1]
    show cm.numCheckedOutSessions + 1 = c.numCheckedOutSessions + 1
    rw [hnum]
  · refine ⟨{ sri with checkedOut := true }, ?_, rfl⟩
    rw [hc1]
    show assocFind lsid (assocUpdate lsid
      (fun s => { s with checkedOut := true }) cm.sessions)
        = some { sri with checkedOut := true }
    rw [assocFind_update_self, hfind]
    rfl

theorem checkOut_success_steps_witness :
    initialCatalog.allowCheckingOutSessions = true ∧
    (⟨0, 0⟩ : ScopedCheckedOutSession).lsid = 0 ∧
    (∃ cm sri, getOrCreateSessionRuntimeInfo initialCatalog false 0
        = some (cm, sri) ∧
      sri.checkedOut = false ∧
      (⟨0, 0⟩ : ScopedCheckedOutSession).gen = sri.gen ∧
      (⟨[(0, ⟨0, ⟨false⟩, true, 0⟩)], true, 1, 1⟩ : SessionCatalog)
        = { cm with
              sessions := assocUpdate 0
                (fun s => { s with checkedOut := true }) cm.sessions,
              numCheckedOutSessions := cm.numCheckedOutSessions + 1 }) ∧
    (⟨[(0, ⟨0, ⟨false⟩, true, 0⟩)], true, 1, 1⟩
        : SessionCatalog).numCheckedOutSessions
      = initialCatalog.numCheckedOutSessions + 1 ∧
    (∃ sri1, assocFind 0 (⟨[(0, ⟨0, ⟨false⟩, true, 0⟩)], true, 1, 1⟩
        : SessionCatalog).sessions = some sri1 ∧
      sri1.checkedOut = true) :=
  checkOut_success_steps initialCatalog
    ⟨[(0, ⟨0, ⟨false⟩, true, 0⟩)], true, 1, 1⟩
    false 0 false false ⟨0, 0⟩ (by decide)

/-- C4: invalidate calls txnState.invalidate on each targeted entry and
erases an entry exactly when its checked-out flag is false; for a single
target the entry is gone afterward iff it was not checked out (otherwise it
stays, invalidated), for an all-targets call the same holds for every entry,
and invalidating a single sid that is not in the map leaves the catalog
unchanged with no error. -/
theorem invalidate_targets_spec (c : SessionCatalog) (isReplSet opHasLsid : Bool)
    (hnd : (c.sessions.map Prod.fst).Nodup)
    (hro : (isReplSet && opHasLsid) = false) :
    (∀ lsid, assocFind lsid c.sessions = none →
      invalidateSessions c isReplSet opHasLsid (some lsid) = (c, none)) ∧
    (∀ lsid sri, assocFind lsid c.sessions = some sri →
      ∃ c1, invalidateSessions c isReplSet opHasLsid (some lsid) = (c1, none) ∧
        (sri.checkedOut = false → assocFind lsid c1.sessions = none) ∧
        (sri.checkedOut = true →
          assocFind lsid c1.sessions = some (invalidateEntry sri))) ∧
    (∃ c1, invalidateSessions c isReplSet opHasLsid none = (c1, none) ∧
      ∀ k sri, assocFind k c.sessions = some sri →
        (sri.checkedOut = false → assocFind k c1.sessions = none) ∧
        (sri.checkedOut = true →
          assocFind k c1.sessions = some (invalidateEntry sri))) := by
  refine ⟨?_, ?_, ?_⟩
  · intro lsid hf
    unfold invalidateSessions
    simp [hro, hf]
  · intro lsid sri hf
    unfold invalidateSessions
    simp only [hro, Bool.false_eq_true, if_false, hf]
    by_cases hco : sri.checkedOut
    · simp only [hco, if_true]
      refine ⟨_, rfl, ?_, ?_⟩
      · intro hcf
        simp at hcf
      · intro _
        show assocFind lsid (assocUpdate lsid invalidateEntry c.sessions)
          = some (invalidateEntry sri)
        rw [assocFind_update_self, hf]
        rfl
    · simp only [hco, Bool.false_eq_true, if_false]
      refine ⟨_, rfl, ?_, ?_⟩
      · intro _
        show assocFind lsid (assocErase lsid
          (assocUpdate lsid invalidateEntry c.sessions)) = none
        exact assocFind_erase_self _ _
      · intro hct
        exact hct.elim
  · unfold invalidateSessions
    simp only [hro, Bool.false_eq_true, if_false]
    refine ⟨_, rfl, ?_⟩
    intro k sri hf
    constructor
    · intro hcf
      show assocFind k ((c.sessions.map fun p =>
          (p.1, invalidateEntry p.2)).filter fun p => p.2.checkedOut) = none
      rw [assocFind_invalidateAll hnd hf, hcf]
      simp
    · intro hct
      show assocFind k ((c.sessions.map fun p =>
          (p.1, invalidateEntry p.2)).filter fun p => p.2.checkedOut)
        = some (invalidateEntry sri)
      rw [assocFind_invalidateAll hnd hf, hct]
      simp

theorem invalidate_targets_spec_witness :
    (∀ lsid, assocFind lsid (⟨[(0, ⟨0, ⟨false⟩, false, 0⟩),
        (1, ⟨1, ⟨false⟩, true, 1⟩)], true, 1, 2⟩ : SessionCatalog).sessions
        = none →
      invalidateSessions ⟨[(0, ⟨0, ⟨false⟩, false, 0⟩),
          (1, ⟨1, ⟨false⟩, true, 1⟩)], true, 1, 2⟩ true false (some lsid)
        = (⟨[(0, ⟨0, ⟨false⟩, false, 0⟩),
            (1, ⟨1, ⟨false⟩, true, 1⟩)], true, 1, 2⟩, none)) ∧
    (∀ lsid sri, assocFind lsid (⟨[(0, ⟨0, ⟨false⟩, false, 0⟩),
        (1, ⟨1, ⟨false⟩, true, 1⟩)], true, 1, 2⟩ : SessionCatalog).sessions
        = some sri →
      ∃ c1, invalidateSessions ⟨[(0, ⟨0, ⟨false⟩, false, 0⟩),
          (1, ⟨1, ⟨false⟩, true, 1⟩)], true, 1, 2⟩ true false (some lsid)
          = (c1, none) ∧
        (sri.checkedOut = false → assocFind lsid c1.sessions = none) ∧
        (sri.checkedOut = true →
          assocFind lsid c1.sessions = some (invalidateEntry sri))) ∧
    (∃ c1, invalidateSessions ⟨[(0, ⟨0, ⟨false⟩, false, 0⟩),
        (1, ⟨1, ⟨false⟩, true, 1⟩)], true, 1, 2⟩ true false none
        = (c1, none) ∧
      ∀ k sri, assocFind k (⟨[(0, ⟨0, ⟨false⟩, false, 0⟩),
          (1, ⟨1, ⟨false⟩, true, 1⟩)], true, 1, 2⟩
          : SessionCatalog).sessions = some sri →
        (sri.checkedOut = false → assocFind k c1.sessions = none) ∧
        (sri.checkedOut = true →
          assocFind k c1.sessions = some (invalidateEntry sri))) :=
  invalidate_targets_spec ⟨[(0, ⟨0, ⟨false⟩, false, 0⟩),
      (1, ⟨1, ⟨false⟩, true, 1⟩)], true, 1, 2⟩ true false
    (by decide) (by decide)

/-- C6: check_out(s), release, check_out(s) again (no intervening
invalidation) yields a handle to the same entry instance: release does not
remove the entry from the map and the second check-out finds it rather than
recreating it, so both handles carry the same creation stamp. -/
theorem checkOut_release_checkOut_same_entry
    (c cA cB cC : SessionCatalog) (s : Nat) (g1 a1 g2 a2 : Bool)
    (h1 h2 : ScopedCheckedOutSession)
    (hco1 : checkOutSession c false false (some s) g1 a1 = .ok cA h1)
    (hrel : releaseSession cA s = some cB)
    (hco2 : checkOutSession cB false false (some s) g2 a2 = .ok cC h2) :
    h2 = h1 ∧
    ∃ sri, assocFind s cB.sessions = some sri ∧ sri.gen = h1.gen := by
  obtain ⟨ha1, hl1, cm, sri, hg1, hcof, hgen1, hcA⟩ := checkOut_ok_aux hco1
  obtain ⟨hfindm, hallm, hnumm⟩ := getOrCreateSRI_found hg1
  have hfindA : assocFind s cA.sessions
      = some { sri with checkedOut := true } := by
    rw [hcA]
    show assocFind s (assocUpdate s
      (fun x => { x with checkedOut := true }) cm.sessions)
        = some { sri with checkedOut := true }
    rw [assocFind_update_self, hfindm]
    rfl
  obtain ⟨sriA, hfA, hcoA, hcB⟩ := releaseSession_some hrel
  rw [hfindA] at hfA
  injection hfA with hfA1
  subst hfA1
  have hfindB : assocFind s cB.sessions
      = some { sri with checkedOut := false } := by
    rw [hcB]
    show assocFind s (assocUpdate s
      (fun x => { x with checkedOut := false }) cA.sessions)
        = some { sri with checkedOut := false }
    rw [assocFind_update_self, hfindA]
    rfl
  obtain ⟨ha2, hl2, cm2, sri2, hg2, hcof2, hgen2, hcC⟩ := checkOut_ok_aux hco2
  rcases (getOrCreateSRI_cases hg2).2.2 with ⟨hf2, rfl⟩ | ⟨hf2, hsri2, rfl⟩
  · rw [hfindB] at hf2
    injection hf2 with hf21
    subst hf21
    have hh1 : h1 = ⟨s, sri.gen⟩ := by
      cases h1
      simp at hl1 hgen1
      rw [hl1, hgen1]
    have hh2 : h2 = ⟨s, sri.gen⟩ := by
      cases h2
      simp at hl2 hgen2
      rw [hl2, hgen2]
    refine ⟨by rw [hh1, hh2], { sri with checkedOut := false }, hfindB, ?_⟩
    rw [hh1]
  · rw [hfindB] at hf2
    simp at hf2

theorem checkOut_release_checkOut_same_entry_witness :
    (⟨0, 0⟩ : ScopedCheckedOutSession) = ⟨0, 0⟩ ∧
    ∃ sri, assocFind 0 (⟨[(0, ⟨0, ⟨false⟩, false, 0⟩)], true, 0, 1⟩
        : SessionCatalog).sessions = some sri ∧
      sri.gen = (⟨0, 0⟩ : ScopedCheckedOutSession).gen :=
  checkOut_release_checkOut_same_entry initialCatalog
    ⟨[(0, ⟨0, ⟨false⟩, true, 0⟩)], true, 1, 1⟩
    ⟨[(0, ⟨0, ⟨false⟩, false, 0⟩)], true, 0, 1⟩
    ⟨[(0, ⟨0, ⟨false⟩, true, 0⟩)], true, 1, 1⟩
    0 false false false false ⟨0, 0⟩ ⟨0, 0⟩
    (by decide) (by decide) (by decide)

/-- C8: on replication step-up the catalog first invalidates all sessions
and then attempts to create the durable session-transactions collection; a
creation attempt failing with NamespaceExists is treated as success, and any
other creation failure surfaces as a table-creation error carrying a context
string naming the collection.  In all three cases the catalog component of
the result is the invalidate-all state, so the invalidation precedes the
creation attempt. -/
theorem onStepUp_spec (c : SessionCatalog) (isReplSet : Bool) (code : Nat)
    (hcode : code ≠ namespaceExistsCode) :
    onStepUp c isReplSet false .success
        = ((invalidateSessions c isReplSet false none).1, none) ∧
    onStepUp c isReplSet false (.failed namespaceExistsCode)
        = ((invalidateSessions c isReplSet false none).1, none) ∧
    onStepUp c isReplSet false (.failed code)
        = ((invalidateSessions c isReplSet false none).1,
           some (.tableCreationFailed code
             ("Failed to create the " ++ kSessionTransactionsTableNamespace
                ++ " collection"))) := by
  have hsnd : (invalidateSessions c isReplSet false none).2 = none := by
    unfold invalidateSessions
    simp
  have hinv : invalidateSessions c isReplSet false none
      = ((invalidateSessions c isReplSet false none).1, none) := by
    rw [← hsnd]
  refine ⟨?_, ?_, ?_⟩
  all_goals unfold onStepUp
  all_goals rw [hinv]
  all_goals simp [hcode]

theorem onStepUp_spec_witness :
    (99 : Nat) ≠ namespaceExistsCode ∧
    onStepUp initialCatalog false false .success
      = ((invalidateSessions initialCatalog false false none).1, none) :=
  ⟨by decide, (onStepUp_spec initialCatalog false 99 (by decide)).1⟩

/-- C9: router-side fan-out: with no transaction router bound to the
operation the batch is handed to the underlying sender unchanged; with a
router bound every request's payload is rewritten by the target shard's
participant (attachTxnFieldsIfNeeded) before dispatch; and each next() call,
after consuming a response, has marked the participant for that response's
shard as command-sent. -/
theorem router_fanout_spec :
    (∀ requests pending,
      makeMultiStatementSender none requests pending
        = ⟨none, requests, pending⟩) ∧
    (∀ (r : TransactionRouter) requests pending, RouterWF r →
      (makeMultiStatementSender (some r) requests pending).sentRequests
        = requests.map fun q =>
            ⟨q.shardId, CmdObj.withTxnFields q.shardId q.cmdObj⟩) ∧
    (∀ (s s' : MultiStatementTransactionRequestsSender) resp r, RouterWF r →
      s.txnRouter = some r → s.next = some (s', resp) →
      ∃ r' p, s'.txnRouter = some r' ∧
        assocFind resp.shardId r'.participants = some p ∧
        p.commandSent = true) := by
  refine ⟨?_, ?_, ?_⟩
  · intro requests pending
    rfl
  · intro r requests pending hr
    show (attachTxnDetails (some r) requests).2
      = requests.map fun q =>
          ⟨q.shardId, CmdObj.withTxnFields q.shardId q.cmdObj⟩
    exact attachTxnDetails_some_spec r hr requests
  · intro s s1 resp r hr hsr hn
    exact next_marks_commandSent s s1 resp r hr hsr hn

theorem router_fanout_spec_witness :
    ∃ r' p,
      (⟨some ⟨[(3, ⟨3, true⟩)]⟩, [], []⟩ :
          MultiStatementTransactionRequestsSender).txnRouter = some r' ∧
      assocFind (⟨3, 7⟩ : Response).shardId r'.participants = some p ∧
      p.commandSent = true :=
  router_fanout_spec.2.2 ⟨some ⟨[]⟩, [], [⟨3, 7⟩]⟩
    ⟨some ⟨[(3, ⟨3, true⟩)]⟩, [], []⟩ ⟨3, 7⟩ ⟨[]⟩
    (by intro p hp; simp at hp) rfl (by decide)
